import Mathlib

/-!
# HotROD frontend `bestETA` and customer `database`

A shallow embedding of `services/frontend/best_eta.go` and
`services/customer/database.go`, followed by the properties proved about them.

Go values are embedded as follows.
* `time.Duration` and `int` are `Int` (only compared, never added).
* A Go `error` is `Option GoError`, `none` being `nil`.
* A Go pointer result `*T` is `Option T`, `none` being `nil`.
* A Go `(value, error)` return is a pair.
* Logging, tracing spans and baggage never influence control flow or results
  and are left out, except where they appear as events of a trace.
-/

namespace hotrod

/-- Go `time.Duration`: a signed 64-bit count of nanoseconds. -/
abbrev Duration := Int

/-- Value of the Go constant `math.MaxInt64`. -/
def MaxInt64 : Int := 9223372036854775807

/-- One minute as a `time.Duration`. -/
def Minute : Duration := 60000000000

/-- A Go `error` value built by `errors.New`; `nil` is `none : Option GoError`. -/
structure GoError where
  msg : String
deriving DecidableEq, Repr

namespace customer

/-- Customer record (`services/customer`), the fields used by `database.go`. -/
structure Customer where
  ID : String
  Name : String
  Location : String
deriving DecidableEq, Repr

/-- Modelled from the spec: `tracing.Mutex` (package `hotrod/pkg/tracing`) is not
part of the sources at hand. The spec gives it as a guarded resource with at
most one holder: `acquire` blocks until exclusive access is granted, `release`
hands the resource back. Its state is whether it is held. -/
structure Mutex where
  held : Bool
deriving DecidableEq, Repr

/-- The configuration read by `database.Get` (package `hotrod/services/config`,
not part of the sources at hand, hence a parameter). -/
structure Config where
  MySQLMutexDisabled : Bool
  MySQLGetDelay : Duration
  MySQLGetDelayStdDev : Duration
deriving DecidableEq, Repr

/-- Observable steps of one call of `database.Get`, in program order. -/
inductive Event where
  | spanStart
  | lock
  | sleep (mean stdDev : Duration)
  | unlock
  | spanEnd
deriving DecidableEq, Repr

/-- The `database` struct: the `customers` map and the `lock`
(tracer and logger are observability only). -/
structure database where
  customers : List (Int × Customer)
  lock : Mutex
deriving DecidableEq, Repr

/-- The function `newDatabase`: the four customers of the map literal and a fresh
mutex. -/
def newDatabase : database :=
  { lock := { held := false }
    customers :=
      [ (123, { ID := "123", Name := "Rachel's_Floral_Designs", Location := "115,277" }),
        (567, { ID := "567", Name := "Amazing_Coffee_Roasters", Location := "211,653" }),
        (392, { ID := "392", Name := "Trom_Chocolatier", Location := "577,322" }),
        (731, { ID := "731", Name := "Japanese_Desserts", Location := "728,326" }) ] }

/-- The error value `errors.New("invalid customer ID")` of `database.Get`. -/
def errInvalidCustomer : GoError := ⟨"invalid customer ID"⟩

/-- A call registered with `defer` in `database.Get`. -/
inductive Deferred where
  | spanEnd
  | unlock
deriving DecidableEq, Repr

/-- Run the deferred calls at function exit, most recently deferred first (the
list is the defer stack, top first). -/
def runDeferred : List Deferred → database × List Event → database × List Event
  | [], st => st
  | .spanEnd :: ds, (d, tr) => runDeferred ds (d, tr ++ [.spanEnd])
  | .unlock :: ds, (d, tr) =>
    runDeferred ds ({ d with lock := { held := false } }, tr ++ [.unlock])

/-- One call of `database.Get`, run to its end. `result` is the returned Go pair
`(*Customer, error)`, or `none` when the call never gets past `d.lock.Lock`
because the mutex is held; `db` is the database afterwards, `trace` the steps
taken. -/
structure GetRun where
  result : Option (Option Customer × Option GoError)
  db : database
  trace : List Event
deriving DecidableEq, Repr

/-- The method `database.Get` (lines 75-100). -/
def database.Get (cfg : Config) (d : database) (customerID : Int) : GetRun :=
  -- ctx, span := d.tracer.Start(...); defer span.End()
  let tr := [Event.spanStart]
  let defers := [Deferred.spanEnd]
  if !cfg.MySQLMutexDisabled then
    if d.lock.held then
      -- d.lock.Lock(ctx) waits for a holder that this call cannot release
      { result := none, db := d, trace := tr }
    else
      -- d.lock.Lock(ctx); defer d.lock.Unlock()
      let d := { d with lock := { held := true } }
      let tr := tr ++ [Event.lock]
      let defers := Deferred.unlock :: defers
      -- delay.Sleep(config.MySQLGetDelay, config.MySQLGetDelayStdDev)
      let tr := tr ++ [Event.sleep cfg.MySQLGetDelay cfg.MySQLGetDelayStdDev]
      match d.customers.lookup customerID with
      | some customer =>
        let (d, tr) := runDeferred defers (d, tr)
        { result := some (some customer, none), db := d, trace := tr }
      | none =>
        let (d, tr) := runDeferred defers (d, tr)
        { result := some (none, some errInvalidCustomer), db := d, trace := tr }
  else
    let tr := tr ++ [Event.sleep cfg.MySQLGetDelay cfg.MySQLGetDelayStdDev]
    match d.customers.lookup customerID with
    | some customer =>
      let (d, tr) := runDeferred defers (d, tr)
      { result := some (some customer, none), db := d, trace := tr }
    | none =>
      let (d, tr) := runDeferred defers (d, tr)
      { result := some (none, some errInvalidCustomer), db := d, trace := tr }

end customer

namespace driver

/-- Driver as returned by the nearest-drivers collaborator
(`driver.Driver{DriverID, Location}`). -/
structure Driver where
  DriverID : String
  Location : String
deriving DecidableEq, Repr

end driver

namespace route

/-- Modelled from the spec: the declaration of `route.Route` is not part of the
sources at hand; the spec gives the routing result as `Route{ETA}`, and `ETA` is
the only field `best_eta.go` reads. -/
structure Route where
  ETA : Duration
deriving DecidableEq, Repr

end route

namespace frontend

/-- Response contains ETA for a trip (`best_eta.go`, `type Response`). -/
structure Response where
  Driver : String
  ETA : Duration
deriving DecidableEq, Repr

/-- The `routeResult` struct of `best_eta.go`: `route` is a `*route.Route`. -/
structure routeResult where
  driver : String
  route : Option route.Route
  err : Option GoError
deriving DecidableEq, Repr

/-- What a call of `bestETA.Get` does: return the Go pair `(*Response, error)`,
or stop with a run-time fault (nil pointer dereference). -/
inductive GetResult where
  | ret (resp : Option Response) (err : Option GoError)
  | fault
deriving DecidableEq, Repr

/-- The error value `errors.New("no routes found")` of `bestETA.Get`. -/
def errNoRoutes : GoError := ⟨"no routes found"⟩

/-- Lines 112-126 of `bestETA.Get`: the `for _, result := range results` loop and
the statements after it. `err` is the function-level variable `err` as it stands
when the loop starts, `resp` the current `*resp`. -/
def bestETA.Get.reduce (err : Option GoError) (resp : Response) :
    List routeResult → GetResult
  | [] =>
    if resp.Driver = "" then .ret none (some errNoRoutes)
    else .ret (some resp) none
  | result :: rest =>
    if result.err ≠ none then .ret none err
    else
      match result.route with
      | none => .fault
      | some rt =>
        if rt.ETA < resp.ETA then
          bestETA.Get.reduce err { Driver := result.driver, ETA := rt.ETA } rest
        else
          bestETA.Get.reduce err resp rest

/-- Line 111 of `bestETA.Get`: `resp := &Response{ETA: math.MaxInt64}`. -/
def bestETA.Get.resp0 : Response := { Driver := "", ETA := MaxInt64 }

/-- ETA carried by a result; a result without a route has none. -/
def routeResult.eta? (r : routeResult) : Option Duration :=
  r.route.map (fun rt => rt.ETA)

/-- Modelled from the spec: `pool.Pool` (package `hotrod/pkg/pool`) is not part
of the sources at hand. The spec gives it a capacity `C ≥ 1` of long-lived
workers; `submit` never blocks or fails, every submitted task eventually runs on
a worker that is free, and at most `C` tasks run at any instant. -/
structure Pool where
  workers : Nat
  pos : 0 < workers

/-- The `bestETA` struct: the three collaborators, as the Go pairs their methods
return, and the worker pool (the logger is observability only). `customer` is
`customer.Interface.Get`, `driver` is `driver.Interface.FindNearest`, `route` is
`route.Interface.FindRoute`. -/
structure bestETA where
  customer : Int → Option customer.Customer × Option GoError
  driver : String → List driver.Driver × Option GoError
  route : String → String → Option route.Route × Option GoError
  pool : Pool

/-- A call made to a collaborator. -/
inductive Call where
  | customerGet (customerID : Int)
  | findNearest (location : String)
  | findRoute (pickup dropoff : String)
deriving DecidableEq, Repr

/-- Where the closure handed to `eta.pool.Execute` (lines 144-154) stands.
`routed`, `locked` and `read` carry the `routeResult` built from the locals
`driver`, `route` and `err`; `read` also carries the value of `results` that
`append` has read and is about to extend. -/
inductive Pc where
  | queued
  | routed (r : routeResult)
  | locked (r : routeResult)
  | read (r : routeResult) (old : List routeResult)
  | appended
  | unlocked
  | done
deriving DecidableEq, Repr

/-- A dispatched closure: its captured `driver` and its program counter. -/
structure Task where
  driver : driver.Driver
  pc : Pc
deriving DecidableEq, Repr

/-- State of one call of `getRoutes`: the drivers the `for` loop has still to
dispatch, the dispatched closures in dispatch order, the slice `results`, the
counter of `wg`, whether `routesLock` is held, the `FindRoute` calls made, and
the returned slice once `wg.Wait()` has let `getRoutes` return. -/
structure State where
  todo : List driver.Driver
  tasks : List Task
  results : List routeResult
  wg : Nat
  routesLock : Bool
  calls : List Call
  ret : Option (List routeResult)
deriving DecidableEq, Repr

/-- The `routeResult` a closure builds for driver `d` (lines 145-151). -/
def bestETA.outcome (eta : bestETA) (customer : customer.Customer)
    (d : driver.Driver) : routeResult :=
  { driver := d.DriverID
    route := (eta.route d.Location customer.Location).1
    err := (eta.route d.Location customer.Location).2 }

/-- A closure occupies a worker from the moment it is picked up until it ends. -/
def Pc.busy : Pc → Bool
  | .queued => false
  | .routed _ => true
  | .locked _ => true
  | .read _ _ => true
  | .appended => true
  | .unlocked => true
  | .done => false

/-- Number of workers that are running a closure. -/
def busyWorkers (tasks : List Task) : Nat :=
  tasks.countP (fun t => t.pc.busy)

/-- State of `getRoutes` on entry (lines 137-139). -/
def bestETA.getRoutes.init (drivers : List driver.Driver) : State :=
  { todo := drivers, tasks := [], results := [], wg := 0, routesLock := false,
    calls := [], ret := none }

/-- One step of the calling goroutine of `getRoutes`: the next iteration of the
`for` loop (`wg.Add(1)` and `eta.pool.Execute`), or, after the loop,
`wg.Wait()` and `return results`, which needs the counter to be zero. -/
def bestETA.getRoutes.stepMain (s : State) : Option State :=
  match s.ret with
  | some _ => none
  | none =>
    match s.todo with
    | dd :: rest =>
      some { s with todo := rest, wg := s.wg + 1,
                    tasks := s.tasks ++ [{ driver := dd, pc := .queued }] }
    | [] => if s.wg = 0 then some { s with ret := some s.results } else none

/-- One step of the `i`-th dispatched closure, `none` when it cannot move: a
queued closure needs a free worker, `routesLock.Lock()` needs the lock free, a
finished closure has no step. `wg.Done()` is only reached with a positive
counter. -/
def bestETA.getRoutes.stepTask (eta : bestETA) (customer : customer.Customer)
    (s : State) (i : Nat) : Option State :=
  match s.tasks[i]? with
  | none => none
  | some t =>
    match t.pc with
    | .queued =>
      if busyWorkers s.tasks < eta.pool.workers then
        some { s with
          tasks := s.tasks.set i { t with pc := .routed (eta.outcome customer t.driver) }
          calls := s.calls ++ [.findRoute t.driver.Location customer.Location] }
      else none
    | .routed r =>
      if s.routesLock then none
      else some { s with routesLock := true, tasks := s.tasks.set i { t with pc := .locked r } }
    | .locked r =>
      some { s with tasks := s.tasks.set i { t with pc := .read r s.results } }
    | .read r old =>
      some { s with results := old ++ [r], tasks := s.tasks.set i { t with pc := .appended } }
    | .appended =>
      some { s with routesLock := false, tasks := s.tasks.set i { t with pc := .unlocked } }
    | .unlocked =>
      some { s with wg := s.wg - 1, tasks := s.tasks.set i { t with pc := .done } }
    | .done => none

/-- One step of the goroutine picked by `c`: `0` is the caller of `getRoutes`,
`i + 1` the `i`-th dispatched closure. -/
def bestETA.getRoutes.step (eta : bestETA) (customer : customer.Customer)
    (s : State) : Nat → Option State
  | 0 => bestETA.getRoutes.stepMain s
  | i + 1 => bestETA.getRoutes.stepTask eta customer s i

/-- Follow a schedule, a list of goroutine picks; a pick that cannot move leaves
the state as it is. -/
def bestETA.getRoutes.run (eta : bestETA) (customer : customer.Customer)
    (s : State) (sched : List Nat) : State :=
  sched.foldl (fun s c => (bestETA.getRoutes.step eta customer s c).getD s) s

/-- The step of the first goroutine that can move, if any. -/
def bestETA.getRoutes.next (eta : bestETA) (customer : customer.Customer)
    (s : State) : Option State :=
  (List.range (s.tasks.length + 1)).findSome? (bestETA.getRoutes.step eta customer s)

/-- Keep stepping, at most `fuel` times, until no goroutine can move. -/
def bestETA.getRoutes.finish (eta : bestETA) (customer : customer.Customer) :
    Nat → State → State
  | 0, s => s
  | fuel + 1, s =>
    match bestETA.getRoutes.next eta customer s with
    | none => s
    | some s1 => bestETA.getRoutes.finish eta customer fuel s1

/-- Steps a closure has left. -/
def Pc.remaining : Pc → Nat
  | .queued => 6
  | .routed _ => 5
  | .locked _ => 4
  | .read _ _ => 3
  | .appended => 2
  | .unlocked => 1
  | .done => 0

/-- Steps a call of `getRoutes` has left: seven per driver not yet dispatched,
the remaining steps of each closure, and the return. -/
def State.remaining (s : State) : Nat :=
  7 * s.todo.length + (s.tasks.map (fun t => t.pc.remaining)).sum +
    (if s.ret.isSome then 0 else 1)

/-- The state in which a call of `getRoutes` ends under a schedule: the
goroutines interleave as `sched` says and then as `finish` picks, for as many
steps as are left. -/
def bestETA.getRoutes.final (eta : bestETA) (sched : List Nat)
    (customer : customer.Customer) (drivers : List driver.Driver) : State :=
  let s := bestETA.getRoutes.run eta customer (bestETA.getRoutes.init drivers) sched
  bestETA.getRoutes.finish eta customer s.remaining s

/-- The method `getRoutes` (lines 136-158) under a schedule. The result is the returned slice, `none` if `wg.Wait()` never returns,
together with the `FindRoute` calls made. -/
def bestETA.getRoutes (eta : bestETA) (sched : List Nat)
    (customer : customer.Customer) (drivers : List driver.Driver) :
    Option (List routeResult) × List Call :=
  let s := bestETA.getRoutes.final eta sched customer drivers
  (s.ret, s.calls)

/-- What a call of `bestETA.Get` does, with the collaborator calls it made. -/
structure GetRun where
  result : Option GetResult
  calls : List Call

/-- The method `bestETA.Get` (lines 84-127) under a schedule for the goroutines
of `getRoutes`. `result` is `none` if `getRoutes` never returns. The baggage
statements of lines 91-100 only log their errors, and the `err` they assign is
overwritten on line 102. -/
def bestETA.Get (eta : bestETA) (sched : List Nat) (customerID : Int) : GetRun :=
  -- customer, err := eta.customer.Get(ctx, customerID)
  match eta.customer customerID with
  | (_, some err) => { result := some (.ret none (some err)), calls := [.customerGet customerID] }
  | (none, none) => { result := some .fault, calls := [.customerGet customerID] }
  | (some customer, none) =>
    -- drivers, err := eta.driver.FindNearest(ctx, customer.Location)
    match eta.driver customer.Location with
    | (drivers, err) =>
      let calls := [Call.customerGet customerID, Call.findNearest customer.Location]
      if err ≠ none then { result := some (.ret none err), calls := calls }
      else
        match eta.getRoutes sched customer drivers with
        | (none, rcalls) => { result := none, calls := calls ++ rcalls }
        | (some results, rcalls) =>
          { result := some (bestETA.Get.reduce err bestETA.Get.resp0 results),
            calls := calls ++ rcalls }

/-- The result a dispatched closure has still to append, if any. -/
def Task.pending (eta : bestETA) (customer : customer.Customer) (t : Task) :
    List routeResult :=
  match t.pc with
  | .queued => [eta.outcome customer t.driver]
  | .routed r => [r]
  | .locked r => [r]
  | .read r _ => [r]
  | .appended => []
  | .unlocked => []
  | .done => []

/-- A closure between `routesLock.Lock()` and `routesLock.Unlock()`. -/
def Pc.crit : Pc → Bool
  | .queued => false
  | .routed _ => false
  | .locked _ => true
  | .read _ _ => true
  | .appended => true
  | .unlocked => false
  | .done => false

/-- A closure that has not yet called `wg.Done()`. -/
def Pc.live : Pc → Bool
  | .queued => true
  | .routed _ => true
  | .locked _ => true
  | .read _ _ => true
  | .appended => true
  | .unlocked => true
  | .done => false

/-- Number of closures between `routesLock.Lock()` and `routesLock.Unlock()`. -/
def critCount (tasks : List Task) : Nat :=
  tasks.countP (fun t => t.pc.crit)

/-- Number of closures that have not yet called `wg.Done()`. -/
def liveCount (tasks : List Task) : Nat :=
  tasks.countP (fun t => t.pc.live)

/-- Invariant of the goroutines of one call of `getRoutes` on `drivers`:
* `perm`: the appended results, those the closures still owe and those of the
  drivers not yet dispatched make up one result per driver;
* `read`: a closure that has read `results` inside `append` read its current
  value (nobody wrote in between);
* `crit`: `routesLock` is held exactly when one closure is between `Lock` and
  `Unlock`, and never more than one is;
* `wg`: the counter of `wg` is the number of closures that have not called
  `Done`;
* `ret`: `getRoutes` returns only after the loop, with the counter at zero, and
  what it returns is `results`. -/
structure Inv (eta : bestETA) (customer : customer.Customer)
    (drivers : List driver.Driver) (s : State) : Prop where
  perm : (s.results ++ (s.tasks.flatMap (Task.pending eta customer) ++
            s.todo.map (eta.outcome customer))).Perm (drivers.map (eta.outcome customer))
  read : ∀ t ∈ s.tasks, ∀ r old, t.pc = .read r old → old = s.results
  crit : critCount s.tasks = if s.routesLock then 1 else 0
  wg : s.wg = liveCount s.tasks
  ret : ∀ rs, s.ret = some rs → s.todo = [] ∧ s.wg = 0 ∧ rs = s.results

/-- Whether `r` has an ETA that no result of `rs` undercuts. -/
def attainsMin (rs : List routeResult) (r : routeResult) : Prop :=
  ∃ x, r.eta? = some x ∧ ∀ r1 ∈ rs, ∀ y, r1.eta? = some y → x ≤ y

/-- The frontend of the spec scenario: customers come from the customer
database, every location has the nearby drivers D1 at "116,277" and D2 at
"500,500", the route from "116,277" takes 3 minutes and every other route 40,
and the pool has 3 workers. -/
def scenario : bestETA :=
  { customer := fun customerID =>
      ((customer.database.Get ⟨false, 0, 0⟩ customer.newDatabase customerID).result).getD
        (none, none)
    driver := fun _ => ([⟨"D1", "116,277"⟩, ⟨"D2", "500,500"⟩], none)
    route := fun pickup _ =>
      if pickup = "116,277" then (some ⟨3 * Minute⟩, none) else (some ⟨40 * Minute⟩, none)
    pool := ⟨3, by decide⟩ }

/-- The scenario with a nearest-drivers collaborator that fails. -/
def scenarioNoDrivers : bestETA :=
  { scenario with driver := fun _ => ([], some ⟨"driver service unavailable"⟩) }

/-- The scenario with a nearest-drivers collaborator that finds nobody. -/
def scenarioEmpty : bestETA :=
  { scenario with driver := fun _ => ([], none) }

/-- The scenario with a routing collaborator that fails for D2. -/
def scenarioRouteFails : bestETA :=
  { scenario with
    route := fun pickup _ =>
      if pickup = "116,277" then (some ⟨3 * Minute⟩, none)
      else (none, some ⟨"route service unavailable"⟩) }

end frontend

/-! ## The reduction loop of `bestETA.Get` -/

namespace frontend

/-- Lines 121-126 of `bestETA.Get`, what `reduce` does once the loop is over. -/
theorem reduce_nil (err : Option GoError) (resp : Response) :
    bestETA.Get.reduce err resp [] =
      if resp.Driver = "" then .ret none (some errNoRoutes) else .ret (some resp) none := by
  simp [bestETA.Get.reduce]

/-- One pass of the loop on a result without error that has a route. -/
theorem reduce_cons_ok (err : Option GoError) (resp : Response) (d : String)
    (rt : route.Route) (rest : List routeResult) :
    bestETA.Get.reduce err resp (⟨d, some rt, none⟩ :: rest) =
      if rt.ETA < resp.ETA then bestETA.Get.reduce err ⟨d, rt.ETA⟩ rest
      else bestETA.Get.reduce err resp rest := by
  simp [bestETA.Get.reduce]

/-- On results without error that all have a route, the loop ends with some
`resp` on which the final test of `Get` is made; that `resp` has the least ETA
among the start value and the results, and is either the start value or the
first result with that ETA. -/
theorem reduce_ok (err : Option GoError) :
    ∀ (results : List routeResult) (resp0 : Response),
      (∀ r ∈ results, r.err = none ∧ r.route ≠ none) →
      ∃ resp : Response,
        bestETA.Get.reduce err resp0 results = bestETA.Get.reduce err resp [] ∧
        resp.ETA ≤ resp0.ETA ∧
        (∀ r ∈ results, ∀ x, r.eta? = some x → resp.ETA ≤ x) ∧
        (resp = resp0 ∨
          (resp.ETA < resp0.ETA ∧
            ∃ r0, results.find? (fun r => decide (r.eta? = some resp.ETA)) = some r0 ∧
              r0.driver = resp.Driver)) := by
  intro results
  induction results with
  | nil =>
    intro resp0 _
    exact ⟨resp0, rfl, le_refl _, by simp, Or.inl rfl⟩
  | cons result rest ih =>
    intro resp0 hok
    have hrest : ∀ r ∈ rest, r.err = none ∧ r.route ≠ none :=
      fun r hr => hok r (List.mem_cons_of_mem _ hr)
    obtain ⟨d, route, e⟩ := result
    have hhead := hok ⟨d, route, e⟩ (List.mem_cons_self _ _)
    simp only at hhead
    obtain ⟨he, hroute⟩ := hhead
    subst he
    obtain ⟨rt, rfl⟩ := Option.ne_none_iff_exists'.mp hroute
    rw [reduce_cons_ok]
    by_cases hlt : rt.ETA < resp0.ETA
    · rw [if_pos hlt]
      obtain ⟨resp, heq, hle, hall, hsel⟩ := ih ⟨d, rt.ETA⟩ hrest
      simp only at hle
      refine ⟨resp, heq, by linarith, ?_, Or.inr ⟨by linarith, ?_⟩⟩
      · intro r hr x hx
        rcases List.mem_cons.mp hr with rfl | hr
        · simp [routeResult.eta?] at hx
          linarith
        · exact hall r hr x hx
      · rcases hsel with rfl | ⟨hlt2, r0, hfind, hdrv⟩
        · exact ⟨⟨d, some rt, none⟩, by simp [routeResult.eta?], rfl⟩
        · refine ⟨r0, ?_, hdrv⟩
          simp only at hlt2
          rw [List.find?_cons_of_neg]
          · exact hfind
          · simp [routeResult.eta?]
            linarith
    · rw [if_neg hlt]
      obtain ⟨resp, heq, hle, hall, hsel⟩ := ih resp0 hrest
      refine ⟨resp, heq, hle, ?_, ?_⟩
      · intro r hr x hx
        rcases List.mem_cons.mp hr with rfl | hr
        · simp [routeResult.eta?] at hx
          linarith
        · exact hall r hr x hx
      · rcases hsel with rfl | ⟨hlt2, r0, hfind, hdrv⟩
        · exact Or.inl rfl
        · refine Or.inr ⟨hlt2, r0, ?_, hdrv⟩
          rw [List.find?_cons_of_neg]
          · exact hfind
          · simp [routeResult.eta?]
            linarith

/-- When no result carries an error and `reduce` returns a Go pair with a
Response, every result has a route. -/
theorem reduce_ret_routes (err : Option GoError) :
    ∀ (results : List routeResult) (resp0 resp : Response) (e : Option GoError),
      (∀ r ∈ results, r.err = none) →
      bestETA.Get.reduce err resp0 results = .ret (some resp) e →
      ∀ r ∈ results, r.err = none ∧ r.route ≠ none := by
  intro results
  induction results with
  | nil => intro _ _ _ _ _ r hr; cases hr
  | cons result rest ih =>
    intro resp0 resp e hno h r hr
    obtain ⟨d, route, e1⟩ := result
    have he1 : e1 = none := hno ⟨d, route, e1⟩ (List.mem_cons_self _ _)
    subst he1
    have hrest : ∀ r ∈ rest, r.err = none := fun r hr => hno r (List.mem_cons_of_mem _ hr)
    cases route with
    | none => simp [bestETA.Get.reduce] at h
    | some rt =>
      rw [reduce_cons_ok] at h
      rcases List.mem_cons.mp hr with rfl | hr
      · simp
      · by_cases hlt : rt.ETA < resp0.ETA
        · rw [if_pos hlt] at h
          exact ih _ _ _ hrest h r hr
        · rw [if_neg hlt] at h
          exact ih _ _ _ hrest h r hr

end frontend

/-! ## The goroutines of `getRoutes` -/

namespace frontend

/-- Replacing the `i`-th element of a list, seen as a split of the list. -/
theorem split_of_getElem? {α : Type} :
    ∀ (l : List α) (i : Nat) (a b : α), l[i]? = some a →
      ∃ pre post, l = pre ++ a :: post ∧ l.set i b = pre ++ b :: post := by
  intro l
  induction l with
  | nil => intro i a b h; simp at h
  | cons x xs ih =>
    intro i a b h
    cases i with
    | zero =>
      simp at h
      subst h
      exact ⟨[], xs, rfl, rfl⟩
    | succ j =>
      simp at h
      obtain ⟨pre, post, h1, h2⟩ := ih j a b h
      exact ⟨x :: pre, post, by simp [h1], by simp [h2]⟩

/-- Counting closures in the critical section across a split of the task list. -/
theorem critCount_split (pre post : List Task) (d : driver.Driver) (pc : Pc) :
    critCount (pre ++ ⟨d, pc⟩ :: post) =
      critCount pre + critCount post + (if pc.crit then 1 else 0) := by
  simp only [critCount, List.countP_append, List.countP_cons]
  omega

/-- Counting closures that have not called `Done` across a split of the task list. -/
theorem liveCount_split (pre post : List Task) (d : driver.Driver) (pc : Pc) :
    liveCount (pre ++ ⟨d, pc⟩ :: post) =
      liveCount pre + liveCount post + (if pc.live then 1 else 0) := by
  simp only [liveCount, List.countP_append, List.countP_cons]
  omega

/-- Counting busy workers across a split of the task list. -/
theorem busyWorkers_split (pre post : List Task) (d : driver.Driver) (pc : Pc) :
    busyWorkers (pre ++ ⟨d, pc⟩ :: post) =
      busyWorkers pre + busyWorkers post + (if pc.busy then 1 else 0) := by
  simp only [busyWorkers, List.countP_append, List.countP_cons]
  omega

/-- What the closures still owe across a split of the task list. -/
theorem pending_split (eta : bestETA) (customer : customer.Customer)
    (pre post : List Task) (t : Task) :
    (pre ++ t :: post).flatMap (Task.pending eta customer) =
      pre.flatMap (Task.pending eta customer) ++
        (t.pending eta customer ++ post.flatMap (Task.pending eta customer)) := by
  simp [List.flatMap_append]

/-- The invariant holds on entry of `getRoutes`. -/
theorem inv_init (eta : bestETA) (customer : customer.Customer)
    (drivers : List driver.Driver) :
    Inv eta customer drivers (bestETA.getRoutes.init drivers) := by
  refine ⟨?_, ?_, ?_, ?_, ?_⟩ <;> simp [bestETA.getRoutes.init, critCount, liveCount]

/-- A step of the caller of `getRoutes` keeps the invariant. -/
theorem inv_stepMain (eta : bestETA) (customer : customer.Customer)
    (drivers : List driver.Driver) (s s1 : State)
    (hinv : Inv eta customer drivers s)
    (h : bestETA.getRoutes.stepMain s = some s1) : Inv eta customer drivers s1 := by
  obtain ⟨hperm, hread, hcrit, hwg, hret⟩ := hinv
  unfold bestETA.getRoutes.stepMain at h
  cases hr : s.ret with
  | some rs => simp [hr] at h
  | none =>
    simp only [hr] at h
    cases ht : s.todo with
    | cons dd rest =>
      simp only [ht, Option.some.injEq] at h
      subst h
      refine ⟨?_, ?_, ?_, ?_, ?_⟩
      · simpa [ht, Task.pending, List.flatMap_append] using hperm
      · intro t hmem r old hpc
        simp only [List.mem_append, List.mem_singleton] at hmem
        rcases hmem with hmem | rfl
        · exact hread t hmem r old hpc
        · simp at hpc
      · have e := critCount_split s.tasks [] dd .queued
        simp only [Pc.crit] at e
        simpa [e, critCount] using hcrit
      · have e := liveCount_split s.tasks [] dd .queued
        simp only [Pc.live, if_true] at e
        show s.wg + 1 = liveCount (s.tasks ++ [⟨dd, .queued⟩])
        rw [e, hwg]
        simp [liveCount]
      · intro rs hrs
        simp [hr] at hrs
    | nil =>
      simp only [ht] at h
      by_cases hz : s.wg = 0
      · simp only [hz, if_true, Option.some.injEq] at h
        subst h
        refine ⟨?_, ?_, ?_, ?_, ?_⟩
        · simpa [ht] using hperm
        · simpa using hread
        · simpa using hcrit
        · simpa [hz] using hwg
        · intro rs hrs
          simp only [Option.some.injEq] at hrs
          simp [hrs]
      · simp [hz] at h

/-- Membership in a task list with one element replaced. -/
theorem mem_split_cases (pre post : List Task) (t u : Task)
    (h : u ∈ pre ++ t :: post) : u = t ∨ u ∈ pre ∨ u ∈ post := by
  simp only [List.mem_append, List.mem_cons] at h
  tauto

/-- A step of a dispatched closure that changes neither `results`, nor what the
closure owes, nor whether it has read `results`, keeps the first two parts of
the invariant. -/
theorem inv_perm_read_of_silent (eta : bestETA) (customer : customer.Customer)
    (drivers : List driver.Driver) (results todo : List routeResult)
    (pre post : List Task) (d : driver.Driver) (pc pc1 : Pc)
    (hpend : Task.pending eta customer ⟨d, pc1⟩ = Task.pending eta customer ⟨d, pc⟩)
    (hnew : ∀ r old, pc1 = .read r old → old = results)
    (hperm : (results ++ ((pre ++ ⟨d, pc⟩ :: post).flatMap (Task.pending eta customer) ++
        todo)).Perm (drivers.map (eta.outcome customer)))
    (hread : ∀ t ∈ pre ++ ⟨d, pc⟩ :: post, ∀ r old, t.pc = .read r old → old = results) :
    (results ++ ((pre ++ ⟨d, pc1⟩ :: post).flatMap (Task.pending eta customer) ++
        todo)).Perm (drivers.map (eta.outcome customer)) ∧
      ∀ t ∈ pre ++ ⟨d, pc1⟩ :: post, ∀ r old, t.pc = .read r old → old = results := by
  constructor
  · rw [pending_split, hpend, ← pending_split]
    exact hperm
  · intro t hmem r old hpc
    rcases mem_split_cases pre post _ t hmem with rfl | hmem | hmem
    · exact hnew r old hpc
    · exact hread t (by simp [hmem]) r old hpc
    · exact hread t (by simp [hmem]) r old hpc

/-- A step of a dispatched closure keeps the invariant. -/
theorem inv_stepTask (eta : bestETA) (customer : customer.Customer)
    (drivers : List driver.Driver) (s s1 : State) (i : Nat)
    (hinv : Inv eta customer drivers s)
    (h : bestETA.getRoutes.stepTask eta customer s i = some s1) :
    Inv eta customer drivers s1 := by
  obtain ⟨hperm, hread, hcrit, hwg, hret⟩ := hinv
  unfold bestETA.getRoutes.stepTask at h
  cases hg : s.tasks[i]? with
  | none => simp [hg] at h
  | some t =>
    simp only [hg] at h
    obtain ⟨drv, pc⟩ := t
    cases pc with
    | queued =>
      simp only at h
      split at h
      swap
      · simp at h
      simp only [Option.some.injEq] at h
      subst h
      obtain ⟨pre, post, hl, hset⟩ :=
        split_of_getElem? s.tasks i ⟨drv, .queued⟩ ⟨drv, .routed (eta.outcome customer drv)⟩ hg
      rw [hl] at hperm hread hcrit hwg
      have hpr := inv_perm_read_of_silent eta customer drivers s.results
        (s.todo.map (eta.outcome customer)) pre post drv (.queued) (.routed (eta.outcome customer drv)) rfl
        (by intro r old hpc; cases hpc) hperm hread
      rw [critCount_split] at hcrit
      rw [liveCount_split] at hwg
      refine ⟨?_, ?_, ?_, ?_, ?_⟩
      · simpa only [hset] using hpr.1
      · simpa only [hset] using hpr.2
      · show critCount (s.tasks.set i _) = _
        rw [hset, critCount_split]
        simpa [Pc.crit] using hcrit
      · show _ = liveCount (s.tasks.set i _)
        rw [hset, liveCount_split]
        simpa [Pc.live] using hwg
      · simpa using hret
    | routed r =>
      simp only at h
      split at h
      · simp at h
      rename_i hfree
      simp only [Option.some.injEq] at h
      subst h
      obtain ⟨pre, post, hl, hset⟩ :=
        split_of_getElem? s.tasks i ⟨drv, .routed r⟩ ⟨drv, .locked r⟩ hg
      rw [hl] at hperm hread hcrit hwg
      have hpr := inv_perm_read_of_silent eta customer drivers s.results
        (s.todo.map (eta.outcome customer)) pre post drv (.routed r) (.locked r) rfl
        (by intro r old hpc; cases hpc) hperm hread
      rw [critCount_split] at hcrit
      rw [liveCount_split] at hwg
      refine ⟨?_, ?_, ?_, ?_, ?_⟩
      · simpa only [hset] using hpr.1
      · simpa only [hset] using hpr.2
      · show critCount (s.tasks.set i _) = _
        rw [hset, critCount_split]
        simp [Pc.crit, hfree] at hcrit ⊢
        omega
      · show _ = liveCount (s.tasks.set i _)
        rw [hset, liveCount_split]
        simpa [Pc.live] using hwg
      · simpa using hret
    | locked r =>
      simp only [Option.some.injEq] at h
      subst h
      obtain ⟨pre, post, hl, hset⟩ :=
        split_of_getElem? s.tasks i ⟨drv, .locked r⟩ ⟨drv, .read r s.results⟩ hg
      rw [hl] at hperm hread hcrit hwg
      have hpr := inv_perm_read_of_silent eta customer drivers s.results
        (s.todo.map (eta.outcome customer)) pre post drv (.locked r) (.read r s.results) rfl
        (by intro r1 old1 hpc; cases hpc; rfl) hperm hread
      rw [critCount_split] at hcrit
      rw [liveCount_split] at hwg
      refine ⟨?_, ?_, ?_, ?_, ?_⟩
      · simpa only [hset] using hpr.1
      · simpa only [hset] using hpr.2
      · show critCount (s.tasks.set i _) = _
        rw [hset, critCount_split]
        simpa [Pc.crit] using hcrit
      · show _ = liveCount (s.tasks.set i _)
        rw [hset, liveCount_split]
        simpa [Pc.live] using hwg
      · simpa using hret
    | read r old =>
      simp only [Option.some.injEq] at h
      subst h
      obtain ⟨pre, post, hl, hset⟩ :=
        split_of_getElem? s.tasks i ⟨drv, .read r old⟩ ⟨drv, .appended⟩ hg
      rw [hl] at hperm hread hcrit hwg
      have hold : old = s.results := hread ⟨drv, .read r old⟩ (by simp) r old rfl
      subst hold
      rw [critCount_split] at hcrit
      rw [liveCount_split] at hwg
      have hnone : critCount pre = 0 ∧ critCount post = 0 := by
        cases hL : s.routesLock <;> simp [Pc.crit, hL] at hcrit
        omega
      refine ⟨?_, ?_, ?_, ?_, ?_⟩
      · show ((s.results ++ [r]) ++ ((s.tasks.set i _).flatMap _ ++ _)).Perm _
        rw [hset, pending_split]
        rw [pending_split] at hperm
        simp only [Task.pending, List.append_assoc, List.nil_append, List.singleton_append]
          at hperm ⊢
        refine List.Perm.trans ?_ hperm
        refine List.Perm.append_left _ ?_
        exact List.perm_middle.symm
      · intro t hmem r1 old1 hpc
        simp only [hset] at hmem
        exfalso
        rcases mem_split_cases pre post _ t hmem with rfl | hmem | hmem
        · simp at hpc
        · have := (List.countP_eq_zero.mp hnone.1) t hmem
          simp [hpc, Pc.crit] at this
        · have := (List.countP_eq_zero.mp hnone.2) t hmem
          simp [hpc, Pc.crit] at this
      · show critCount (s.tasks.set i _) = _
        rw [hset, critCount_split]
        simpa [Pc.crit] using hcrit
      · show _ = liveCount (s.tasks.set i _)
        rw [hset, liveCount_split]
        simpa [Pc.live] using hwg
      · intro rs hrs
        have hw := (hret rs hrs).2.1
        rw [hwg] at hw
        simp [Pc.live] at hw
    | appended =>
      simp only [Option.some.injEq] at h
      subst h
      obtain ⟨pre, post, hl, hset⟩ :=
        split_of_getElem? s.tasks i ⟨drv, .appended⟩ ⟨drv, .unlocked⟩ hg
      rw [hl] at hperm hread hcrit hwg
      have hpr := inv_perm_read_of_silent eta customer drivers s.results
        (s.todo.map (eta.outcome customer)) pre post drv (.appended) (.unlocked) rfl
        (by intro r old hpc; cases hpc) hperm hread
      rw [critCount_split] at hcrit
      rw [liveCount_split] at hwg
      refine ⟨?_, ?_, ?_, ?_, ?_⟩
      · simpa only [hset] using hpr.1
      · simpa only [hset] using hpr.2
      · show critCount (s.tasks.set i _) = _
        rw [hset, critCount_split]
        cases hL : s.routesLock <;> simp [Pc.crit, hL] at hcrit ⊢
        omega
      · show _ = liveCount (s.tasks.set i _)
        rw [hset, liveCount_split]
        simpa [Pc.live] using hwg
      · simpa using hret
    | unlocked =>
      simp only [Option.some.injEq] at h
      subst h
      obtain ⟨pre, post, hl, hset⟩ :=
        split_of_getElem? s.tasks i ⟨drv, .unlocked⟩ ⟨drv, .done⟩ hg
      rw [hl] at hperm hread hcrit hwg
      have hpr := inv_perm_read_of_silent eta customer drivers s.results
        (s.todo.map (eta.outcome customer)) pre post drv (.unlocked) (.done) rfl
        (by intro r old hpc; cases hpc) hperm hread
      rw [critCount_split] at hcrit
      rw [liveCount_split] at hwg
      refine ⟨?_, ?_, ?_, ?_, ?_⟩
      · simpa only [hset] using hpr.1
      · simpa only [hset] using hpr.2
      · show critCount (s.tasks.set i _) = _
        rw [hset, critCount_split]
        simpa [Pc.crit] using hcrit
      · show _ = liveCount (s.tasks.set i _)
        rw [hset, liveCount_split]
        simp [Pc.live] at hwg ⊢
        omega
      · intro rs hrs
        have hw := (hret rs hrs).2.1
        rw [hwg] at hw
        simp [Pc.live] at hw
    | done => simp at h

/-- A step of any goroutine keeps the invariant. -/
theorem inv_step (eta : bestETA) (customer : customer.Customer)
    (drivers : List driver.Driver) (s s1 : State) (c : Nat)
    (hinv : Inv eta customer drivers s)
    (h : bestETA.getRoutes.step eta customer s c = some s1) :
    Inv eta customer drivers s1 := by
  cases c with
  | zero => exact inv_stepMain eta customer drivers s s1 hinv h
  | succ i => exact inv_stepTask eta customer drivers s s1 i hinv h

/-- Following a schedule keeps the invariant. -/
theorem inv_run (eta : bestETA) (customer : customer.Customer)
    (drivers : List driver.Driver) (sched : List Nat) :
    ∀ s : State, Inv eta customer drivers s →
      Inv eta customer drivers (bestETA.getRoutes.run eta customer s sched) := by
  induction sched with
  | nil => intro s hinv; exact hinv
  | cons c rest ih =>
    intro s hinv
    simp only [bestETA.getRoutes.run, List.foldl_cons]
    apply ih
    cases h : bestETA.getRoutes.step eta customer s c with
    | none => simpa using hinv
    | some s1 => simpa using inv_step eta customer drivers s s1 c hinv h

/-- The step `next` takes is a step of some goroutine. -/
theorem next_is_step (eta : bestETA) (customer : customer.Customer) (s s1 : State)
    (h : bestETA.getRoutes.next eta customer s = some s1) :
    ∃ c, bestETA.getRoutes.step eta customer s c = some s1 := by
  obtain ⟨c, _, hc⟩ := List.exists_of_findSome?_eq_some h
  exact ⟨c, hc⟩

/-- Steps the closures have left, across a split of the task list. -/
theorem remaining_split (pre post : List Task) (t : Task) :
    ((pre ++ t :: post).map (fun t => t.pc.remaining)).sum =
      (pre.map (fun t => t.pc.remaining)).sum + (post.map (fun t => t.pc.remaining)).sum +
        t.pc.remaining := by
  simp only [List.map_append, List.map_cons, List.sum_append, List.sum_cons]
  omega

/-- Every step uses up one of the steps that are left. -/
theorem remaining_step (eta : bestETA) (customer : customer.Customer)
    (s s1 : State) (c : Nat)
    (h : bestETA.getRoutes.step eta customer s c = some s1) :
    s1.remaining + 1 = s.remaining := by
  cases c with
  | zero =>
    simp only [bestETA.getRoutes.step, bestETA.getRoutes.stepMain] at h
    cases hr : s.ret with
    | some rs => simp [hr] at h
    | none =>
      simp only [hr] at h
      cases ht : s.todo with
      | cons dd rest =>
        simp only [ht, Option.some.injEq] at h
        subst h
        have e := remaining_split s.tasks [] ⟨dd, .queued⟩
        simp only [State.remaining, hr, ht, e]
        simp [Pc.remaining]
        omega
      | nil =>
        simp only [ht] at h
        split at h
        · simp only [Option.some.injEq] at h
          subst h
          simp [State.remaining, hr, ht]
        · simp at h
  | succ i =>
    simp only [bestETA.getRoutes.step, bestETA.getRoutes.stepTask] at h
    cases hg : s.tasks[i]? with
    | none => simp [hg] at h
    | some t =>
      simp only [hg] at h
      obtain ⟨drv, pc⟩ := t
      cases pc with
      | queued =>
        simp only at h
        split at h
        swap
        · simp at h
        simp only [Option.some.injEq] at h
        subst h
        obtain ⟨pre, post, hl, hset⟩ := split_of_getElem? s.tasks i
          ⟨drv, .queued⟩ ⟨drv, .routed (eta.outcome customer drv)⟩ hg
        simp only [State.remaining, hset, remaining_split]
        rw [hl, remaining_split]
        simp only [Pc.remaining]
        omega
      | routed r =>
        simp only at h
        split at h
        · simp at h
        simp only [Option.some.injEq] at h
        subst h
        obtain ⟨pre, post, hl, hset⟩ := split_of_getElem? s.tasks i
          ⟨drv, .routed r⟩ ⟨drv, .locked r⟩ hg
        simp only [State.remaining, hset, remaining_split]
        rw [hl, remaining_split]
        simp only [Pc.remaining]
        omega
      | locked r =>
        simp only [Option.some.injEq] at h
        subst h
        obtain ⟨pre, post, hl, hset⟩ := split_of_getElem? s.tasks i
          ⟨drv, .locked r⟩ ⟨drv, .read r s.results⟩ hg
        simp only [State.remaining, hset, remaining_split]
        rw [hl, remaining_split]
        simp only [Pc.remaining]
        omega
      | read r old =>
        simp only [Option.some.injEq] at h
        subst h
        obtain ⟨pre, post, hl, hset⟩ := split_of_getElem? s.tasks i
          ⟨drv, .read r old⟩ ⟨drv, .appended⟩ hg
        simp only [State.remaining, hset, remaining_split]
        rw [hl, remaining_split]
        simp only [Pc.remaining]
        omega
      | appended =>
        simp only [Option.some.injEq] at h
        subst h
        obtain ⟨pre, post, hl, hset⟩ := split_of_getElem? s.tasks i
          ⟨drv, .appended⟩ ⟨drv, .unlocked⟩ hg
        simp only [State.remaining, hset, remaining_split]
        rw [hl, remaining_split]
        simp only [Pc.remaining]
        omega
      | unlocked =>
        simp only [Option.some.injEq] at h
        subst h
        obtain ⟨pre, post, hl, hset⟩ := split_of_getElem? s.tasks i
          ⟨drv, .unlocked⟩ ⟨drv, .done⟩ hg
        simp only [State.remaining, hset, remaining_split]
        rw [hl, remaining_split]
        simp only [Pc.remaining]
        omega
      | done => simp at h

/-- A dispatched closure that cannot move is waiting for a worker, waiting for
`routesLock`, or finished. -/
theorem stuck_task (eta : bestETA) (customer : customer.Customer) (s : State)
    (i : Nat) (t : Task) (hg : s.tasks[i]? = some t)
    (h : bestETA.getRoutes.stepTask eta customer s i = none) :
    (t.pc = .queued ∧ eta.pool.workers ≤ busyWorkers s.tasks) ∨
      ((∃ r, t.pc = .routed r) ∧ s.routesLock = true) ∨ t.pc = .done := by
  unfold bestETA.getRoutes.stepTask at h
  simp only [hg] at h
  obtain ⟨drv, pc⟩ := t
  cases pc with
  | queued =>
    simp only at h
    split at h
    · simp at h
    · left
      exact ⟨rfl, by omega⟩
  | routed r =>
    simp only at h
    split at h
    · rename_i hl
      right; left
      exact ⟨⟨r, rfl⟩, hl⟩
    · simp at h
  | locked r => simp at h
  | read r old => simp at h
  | appended => simp at h
  | unlocked => simp at h
  | done => right; right; rfl

/-- No deadlock: while `getRoutes` has not returned, some goroutine can move. -/
theorem progress (eta : bestETA) (customer : customer.Customer)
    (drivers : List driver.Driver) (s : State)
    (hinv : Inv eta customer drivers s) (hr : s.ret = none) :
    ∃ s1, bestETA.getRoutes.next eta customer s = some s1 := by
  by_contra hne
  have hnone : bestETA.getRoutes.next eta customer s = none := by
    cases hn : bestETA.getRoutes.next eta customer s with
    | none => rfl
    | some s1 => exact absurd ⟨s1, hn⟩ hne
  have hall := List.findSome?_eq_none_iff.mp hnone
  -- the caller is stuck: the loop is over and the counter is positive
  have h0 := hall 0 (by simp)
  simp only [bestETA.getRoutes.step, bestETA.getRoutes.stepMain, hr] at h0
  have htodo : s.todo = [] := by
    cases ht : s.todo with
    | nil => rfl
    | cons dd rest => simp [ht] at h0
  have hwg : s.wg ≠ 0 := by
    intro hz
    simp [htodo, hz] at h0
  -- every closure is stuck
  have hstuck : ∀ t ∈ s.tasks,
      (t.pc = .queued ∧ eta.pool.workers ≤ busyWorkers s.tasks) ∨
        ((∃ r, t.pc = .routed r) ∧ s.routesLock = true) ∨ t.pc = .done := by
    intro t ht
    obtain ⟨i, hi⟩ := List.mem_iff_getElem?.mp ht
    have hlt : i < s.tasks.length := by
      obtain ⟨hlt, _⟩ := List.getElem?_eq_some.mp hi
      exact hlt
    have hs := hall (i + 1) (by simp [hlt])
    exact stuck_task eta customer s i t hi hs
  -- nobody is in the critical section, so the lock is free
  have hcrit0 : critCount s.tasks = 0 := by
    apply List.countP_eq_zero.mpr
    intro t ht
    rcases hstuck t ht with ⟨h1, _⟩ | ⟨⟨r, h1⟩, _⟩ | h1 <;> simp [h1, Pc.crit]
  have hfree : s.routesLock = false := by
    have := hinv.crit
    rw [hcrit0] at this
    cases hL : s.routesLock
    · rfl
    · simp [hL] at this
  -- so every closure is queued or finished, and no worker is busy
  have hqd : ∀ t ∈ s.tasks,
      (t.pc = .queued ∧ eta.pool.workers ≤ busyWorkers s.tasks) ∨ t.pc = .done := by
    intro t ht
    rcases hstuck t ht with h1 | ⟨_, h1⟩ | h1
    · exact Or.inl h1
    · rw [hfree] at h1; cases h1
    · exact Or.inr h1
  have hbusy : busyWorkers s.tasks = 0 := by
    apply List.countP_eq_zero.mpr
    intro t ht
    rcases hqd t ht with ⟨h1, _⟩ | h1 <;> simp [h1, Pc.busy]
  -- a positive counter means a closure that is not finished, hence queued
  have hlive : liveCount s.tasks ≠ 0 := by
    rw [← hinv.wg]; exact hwg
  have hex : ∃ t ∈ s.tasks, t.pc.live = true := by
    by_contra hno
    apply hlive
    apply List.countP_eq_zero.mpr
    intro t ht hl
    exact hno ⟨t, ht, hl⟩
  obtain ⟨t, ht, hl⟩ := hex
  rcases hqd t ht with ⟨_, h1⟩ | h1
  · have := eta.pool.pos
    omega
  · simp [h1, Pc.live] at hl

/-- Stepping for as long as steps are left brings `getRoutes` to its return, and
keeps the invariant. -/
theorem finish_returns (eta : bestETA) (customer : customer.Customer)
    (drivers : List driver.Driver) :
    ∀ (fuel : Nat) (s : State), Inv eta customer drivers s → s.remaining ≤ fuel →
      Inv eta customer drivers (bestETA.getRoutes.finish eta customer fuel s) ∧
        (bestETA.getRoutes.finish eta customer fuel s).ret ≠ none := by
  intro fuel
  induction fuel with
  | zero =>
    intro s hinv hfuel
    refine ⟨hinv, ?_⟩
    intro hr
    simp only [bestETA.getRoutes.finish] at hr
    simp [State.remaining, hr] at hfuel
  | succ n ih =>
    intro s hinv hfuel
    simp only [bestETA.getRoutes.finish]
    cases hn : bestETA.getRoutes.next eta customer s with
    | none =>
      refine ⟨hinv, ?_⟩
      intro hr
      obtain ⟨s1, h1⟩ := progress eta customer drivers s hinv hr
      rw [hn] at h1
      cases h1
    | some s1 =>
      obtain ⟨c, hc⟩ := next_is_step eta customer s s1 hn
      have hrem := remaining_step eta customer s s1 c hc
      exact ih s1 (inv_step eta customer drivers s s1 c hinv hc) (by omega)

/-- Once `getRoutes` has returned, what it returned is one result per driver. -/
theorem inv_returned (eta : bestETA) (customer : customer.Customer)
    (drivers : List driver.Driver) (s : State) (rs : List routeResult)
    (hinv : Inv eta customer drivers s) (hr : s.ret = some rs) :
    rs.Perm (drivers.map (eta.outcome customer)) := by
  obtain ⟨htodo, hwg, hrs⟩ := hinv.ret rs hr
  have hlive : liveCount s.tasks = 0 := by rw [← hinv.wg]; exact hwg
  have hpend : s.tasks.flatMap (Task.pending eta customer) = [] := by
    rw [List.flatMap_eq_nil_iff]
    intro t ht
    have hl := (List.countP_eq_zero.mp hlive) t ht
    obtain ⟨drv, pc⟩ := t
    cases pc <;> simp [Pc.live] at hl
    simp [Task.pending]
  have hperm := hinv.perm
  rw [hpend, htodo] at hperm
  simpa [hrs] using hperm

/-- Under every schedule `getRoutes` returns, and what it returns is a
permutation of the per-driver outcomes. -/
theorem getRoutes_returns_perm (eta : bestETA) (sched : List Nat)
    (customer : customer.Customer) (drivers : List driver.Driver) :
    ∃ results, (eta.getRoutes sched customer drivers).1 = some results ∧
      results.Perm (drivers.map (eta.outcome customer)) := by
  have hrun := inv_run eta customer drivers sched _ (inv_init eta customer drivers)
  obtain ⟨hinv, hret⟩ := finish_returns eta customer drivers _ _ hrun (le_refl _)
  cases hr : (bestETA.getRoutes.final eta sched customer drivers).ret with
  | none => exact absurd hr hret
  | some rs =>
    exact ⟨rs, by simp [bestETA.getRoutes, hr],
      inv_returned eta customer drivers _ rs hinv hr⟩

end frontend

namespace customer

/-- The defers of `database.Get` with the mutex in use: unlock, then end the span. -/
theorem runDeferred_locked (d : database) (tr : List Event) :
    runDeferred [Deferred.unlock, Deferred.spanEnd] (d, tr) =
      ({ d with lock := { held := false } }, tr ++ [Event.unlock, Event.spanEnd]) := by
  simp [runDeferred]

/-- The defers of `database.Get` with the mutex switched off: end the span. -/
theorem runDeferred_plain (d : database) (tr : List Event) :
    runDeferred [Deferred.spanEnd] (d, tr) = (d, tr ++ [Event.spanEnd]) := by
  simp [runDeferred]

/-- With the mutex in use and free, `database.Get` locks, sleeps, looks the id
up, unlocks and ends the span. -/
theorem get_locked (cfg : Config) (d : database) (customerID : Int)
    (hm : cfg.MySQLMutexDisabled = false) (hfree : d.lock.held = false) :
    database.Get cfg d customerID =
      { result := some (match d.customers.lookup customerID with
                        | some c => (some c, none)
                        | none => (none, some errInvalidCustomer))
        db := { d with lock := { held := false } }
        trace := [Event.spanStart, Event.lock,
                  Event.sleep cfg.MySQLGetDelay cfg.MySQLGetDelayStdDev,
                  Event.unlock, Event.spanEnd] } := by
  unfold database.Get
  simp only [hm, hfree, runDeferred_locked]
  cases d.customers.lookup customerID <;> simp

/-- With the mutex switched off, `database.Get` sleeps, looks the id up and ends
the span, whatever the state of the mutex. -/
theorem get_plain (cfg : Config) (d : database) (customerID : Int)
    (hm : cfg.MySQLMutexDisabled = true) :
    database.Get cfg d customerID =
      { result := some (match d.customers.lookup customerID with
                        | some c => (some c, none)
                        | none => (none, some errInvalidCustomer))
        db := d
        trace := [Event.spanStart,
                  Event.sleep cfg.MySQLGetDelay cfg.MySQLGetDelayStdDev,
                  Event.spanEnd] } := by
  unfold database.Get
  simp only [hm, runDeferred_plain]
  cases d.customers.lookup customerID <;> simp

/-- The ids present in the map literal of `newDatabase`. -/
theorem newDatabase_lookup_isSome (customerID : Int) :
    (newDatabase.customers.lookup customerID).isSome ↔
      customerID ∈ ([123, 567, 392, 731] : List Int) := by
  simp only [newDatabase, List.lookup, List.mem_cons, List.mem_singleton]
  by_cases h1 : customerID = 123
  · subst h1; decide
  by_cases h2 : customerID = 567
  · subst h2; decide
  by_cases h3 : customerID = 392
  · subst h3; decide
  by_cases h4 : customerID = 731
  · subst h4; decide
  have e1 : (customerID == 123) = false := by simpa using h1
  have e2 : (customerID == 567) = false := by simpa using h2
  have e3 : (customerID == 392) = false := by simpa using h3
  have e4 : (customerID == 731) = false := by simpa using h4
  simp [e1, e2, e3, e4, h1, h2, h3, h4]

/-- C8: for every integer `customerID`, `database.Get` on the database built by
`newDatabase` returns the Customer stored under that id and no error when the
id is present, and no Customer and the error "invalid customer ID" when it is
absent; exactly the ids 123, 567, 392 and 731 are present; the returned pair is
the same for every setting of the mutex switch and of the delay; id 123 yields
the record with ID "123" and Location "115,277", id 999 fails. -/
theorem C8_database_get_by_id (cfg : Config) (customerID : Int) :
    (database.Get cfg newDatabase customerID).result =
        some (match newDatabase.customers.lookup customerID with
              | some c => (some c, none)
              | none => (none, some errInvalidCustomer)) ∧
      ((newDatabase.customers.lookup customerID).isSome ↔
        customerID ∈ ([123, 567, 392, 731] : List Int)) ∧
      (∀ cfg2 : Config, (database.Get cfg2 newDatabase customerID).result =
        (database.Get cfg newDatabase customerID).result) ∧
      (database.Get cfg newDatabase 123).result =
        some (some ⟨"123", "Rachel's_Floral_Designs", "115,277"⟩, none) ∧
      (database.Get cfg newDatabase 999).result = some (none, some errInvalidCustomer) := by
  have key : ∀ (c : Config) (i : Int), (database.Get c newDatabase i).result =
      some (match newDatabase.customers.lookup i with
            | some c => (some c, none)
            | none => (none, some errInvalidCustomer)) := by
    intro c i
    cases hm : c.MySQLMutexDisabled
    · rw [get_locked c newDatabase i hm rfl]
    · rw [get_plain c newDatabase i hm]
  refine ⟨key cfg customerID, newDatabase_lookup_isSome customerID, ?_, ?_, ?_⟩
  · intro cfg2
    rw [key, key]
  · rw [key]; decide
  · rw [key]; decide

/-- C9: on every exit path of `database.Get` (customer found or not), with the
mutex in use and free on entry the call returns having locked exactly once and
unlocked exactly once, the unlock coming after the lookup and before the
return, and leaves the mutex free; with the mutex switched off by configuration
the call returns without any lock or unlock and leaves the database as it was. -/
theorem C9_lock_released_on_every_exit (cfg : Config) (d : database) (customerID : Int) :
    (cfg.MySQLMutexDisabled = false → d.lock.held = false →
      (database.Get cfg d customerID).result ≠ none ∧
      (database.Get cfg d customerID).trace.count Event.lock = 1 ∧
      (database.Get cfg d customerID).trace.count Event.unlock = 1 ∧
      (database.Get cfg d customerID).trace =
        [Event.spanStart, Event.lock,
         Event.sleep cfg.MySQLGetDelay cfg.MySQLGetDelayStdDev,
         Event.unlock, Event.spanEnd] ∧
      (database.Get cfg d customerID).db.lock.held = false ∧
      (database.Get cfg d customerID).db.customers = d.customers) ∧
    (cfg.MySQLMutexDisabled = true →
      (database.Get cfg d customerID).result ≠ none ∧
      (database.Get cfg d customerID).trace.count Event.lock = 0 ∧
      (database.Get cfg d customerID).trace.count Event.unlock = 0 ∧
      (database.Get cfg d customerID).db = d) := by
  constructor
  · intro hm hfree
    rw [get_locked cfg d customerID hm hfree]
    refine ⟨by simp, ?_, ?_, rfl, rfl, rfl⟩
    · simp [List.count_cons]
    · simp [List.count_cons]
  · intro hm
    rw [get_plain cfg d customerID hm]
    refine ⟨by simp, ?_, ?_, rfl⟩
    · simp [List.count_cons]
    · simp [List.count_cons]

/-- Witness of C9: ids 123 (found) and 999 (not found) on the database of
`newDatabase`, with the mutex in use and with the mutex switched off. -/
theorem C9_lock_released_on_every_exit_witness :
    ((database.Get ⟨false, 0, 0⟩ newDatabase 123).trace.count Event.unlock = 1 ∧
      (database.Get ⟨false, 0, 0⟩ newDatabase 123).db.lock.held = false) ∧
    ((database.Get ⟨false, 0, 0⟩ newDatabase 999).trace.count Event.unlock = 1 ∧
      (database.Get ⟨false, 0, 0⟩ newDatabase 999).db.lock.held = false) ∧
    (database.Get ⟨true, 0, 0⟩ newDatabase 999).trace.count Event.lock = 0 :=
  ⟨⟨((C9_lock_released_on_every_exit ⟨false, 0, 0⟩ newDatabase 123).1 rfl rfl).2.2.1,
    ((C9_lock_released_on_every_exit ⟨false, 0, 0⟩ newDatabase 123).1 rfl rfl).2.2.2.2.1⟩,
   ⟨((C9_lock_released_on_every_exit ⟨false, 0, 0⟩ newDatabase 999).1 rfl rfl).2.2.1,
    ((C9_lock_released_on_every_exit ⟨false, 0, 0⟩ newDatabase 999).1 rfl rfl).2.2.2.2.1⟩,
   ((C9_lock_released_on_every_exit ⟨true, 0, 0⟩ newDatabase 999).2 rfl).2.1⟩

end customer

/-! ## `bestETA.Get` as a whole -/

namespace frontend

/-- With the customer found and the drivers found, `Get` reduces what
`getRoutes` returned, a permutation of the per-driver outcomes, with the
variable `err` holding `nil`. -/
theorem get_found (eta : bestETA) (sched : List Nat) (customerID : Int)
    (customer : customer.Customer) (drivers : List driver.Driver)
    (hc : eta.customer customerID = (some customer, none))
    (hd : eta.driver customer.Location = (drivers, none)) :
    ∃ results, results.Perm (drivers.map (eta.outcome customer)) ∧
      (eta.getRoutes sched customer drivers).1 = some results ∧
      eta.Get sched customerID =
        { result := some (bestETA.Get.reduce none bestETA.Get.resp0 results)
          calls := [Call.customerGet customerID, Call.findNearest customer.Location] ++
            (eta.getRoutes sched customer drivers).2 } := by
  obtain ⟨results, hres, hperm⟩ := getRoutes_returns_perm eta sched customer drivers
  refine ⟨results, hperm, hres, ?_⟩
  unfold bestETA.Get
  rw [hc]
  simp only [hd]
  cases hg : eta.getRoutes sched customer drivers with
  | mk r calls =>
    rw [hg] at hres
    simp only at hres
    subst hres
    simp

/-- When some result carries an error and every result without error has a
route, `reduce` returns no Response and the value of the variable `err`. -/
theorem reduce_with_error (err : Option GoError) :
    ∀ (results : List routeResult) (resp0 : Response),
      (∃ r ∈ results, r.err ≠ none) →
      (∀ r ∈ results, r.err = none → r.route ≠ none) →
      bestETA.Get.reduce err resp0 results = .ret none err := by
  intro results
  induction results with
  | nil => intro _ h; obtain ⟨r, hr, _⟩ := h; cases hr
  | cons result rest ih =>
    intro resp0 hex hroute
    obtain ⟨d, route, e⟩ := result
    cases e with
    | some e1 => simp [bestETA.Get.reduce]
    | none =>
      have hr := hroute ⟨d, route, none⟩ (List.mem_cons_self _ _) rfl
      obtain ⟨rt, hrt⟩ := Option.ne_none_iff_exists'.mp hr
      simp only at hrt
      subst hrt
      have hex1 : ∃ r ∈ rest, r.err ≠ none := by
        obtain ⟨r, hmem, hne⟩ := hex
        rcases List.mem_cons.mp hmem with rfl | hmem
        · simp at hne
        · exact ⟨r, hmem, hne⟩
      have hroute1 : ∀ r ∈ rest, r.err = none → r.route ≠ none :=
        fun r hmem => hroute r (List.mem_cons_of_mem _ hmem)
      rw [reduce_cons_ok]
      split
      · exact ih _ hex1 hroute1
      · exact ih _ hex1 hroute1

/-- Without drivers, `getRoutes` ends in its entry state with `ret` set to the
empty slice, under every schedule. -/
theorem final_no_drivers (eta : bestETA) (sched : List Nat)
    (customer : customer.Customer) :
    bestETA.getRoutes.final eta sched customer [] =
      { bestETA.getRoutes.init [] with ret := some [] } := by
  have hrun : ∀ (sched : List Nat) (s : State),
      (s = bestETA.getRoutes.init [] ∨
        s = { bestETA.getRoutes.init [] with ret := some [] }) →
      (bestETA.getRoutes.run eta customer s sched = bestETA.getRoutes.init [] ∨
        bestETA.getRoutes.run eta customer s sched =
          { bestETA.getRoutes.init [] with ret := some [] }) := by
    intro sched
    induction sched with
    | nil => intro s hs; exact hs
    | cons c rest ih =>
      intro s hs
      simp only [bestETA.getRoutes.run, List.foldl_cons]
      apply ih
      rcases hs with rfl | rfl <;> cases c <;>
        simp [bestETA.getRoutes.step, bestETA.getRoutes.stepMain,
          bestETA.getRoutes.stepTask, bestETA.getRoutes.init]
  unfold bestETA.getRoutes.final
  rcases hrun sched _ (Or.inl rfl) with h | h <;> rw [h] <;> rfl

/-- In the spec scenario only the result of D1 attains the smallest ETA. -/
theorem scenario_unique_min :
    ∀ r1 ∈ ([⟨"D1", "116,277"⟩, ⟨"D2", "500,500"⟩] : List driver.Driver).map
        (scenario.outcome ⟨"123", "Rachel's_Floral_Designs", "115,277"⟩),
      ∀ r2 ∈ ([⟨"D1", "116,277"⟩, ⟨"D2", "500,500"⟩] : List driver.Driver).map
          (scenario.outcome ⟨"123", "Rachel's_Floral_Designs", "115,277"⟩),
        attainsMin (([⟨"D1", "116,277"⟩, ⟨"D2", "500,500"⟩] : List driver.Driver).map
          (scenario.outcome ⟨"123", "Rachel's_Floral_Designs", "115,277"⟩)) r1 →
        attainsMin (([⟨"D1", "116,277"⟩, ⟨"D2", "500,500"⟩] : List driver.Driver).map
          (scenario.outcome ⟨"123", "Rachel's_Floral_Designs", "115,277"⟩)) r2 →
        r1.driver = r2.driver := by
  have hout : ([⟨"D1", "116,277"⟩, ⟨"D2", "500,500"⟩] : List driver.Driver).map
      (scenario.outcome ⟨"123", "Rachel's_Floral_Designs", "115,277"⟩) =
      [(⟨"D1", some ⟨3 * Minute⟩, none⟩ : routeResult),
       ⟨"D2", some ⟨40 * Minute⟩, none⟩] := by decide
  rw [hout]
  have hbad : ¬ attainsMin [(⟨"D1", some ⟨3 * Minute⟩, none⟩ : routeResult),
      ⟨"D2", some ⟨40 * Minute⟩, none⟩] ⟨"D2", some ⟨40 * Minute⟩, none⟩ := by
    rintro ⟨x, hx, hmin⟩
    have h1 := hmin ⟨"D1", some ⟨3 * Minute⟩, none⟩ (by simp) (3 * Minute) rfl
    simp only [routeResult.eta?, Option.map_some', Option.some.injEq] at hx
    rw [← hx] at h1
    exact absurd h1 (by decide)
  intro r1 h1 r2 h2 a1 a2
  simp only [List.mem_cons, List.mem_singleton, List.not_mem_nil, or_false] at h1 h2
  rcases h1 with rfl | rfl
  · rcases h2 with rfl | rfl
    · rfl
    · exact absurd a2 hbad
  · exact absurd a1 hbad

end frontend

/-! ## The claims -/

namespace frontend

/-- C1: for every accumulated list of route results in which no result carries
an error, whenever `bestETA.Get` returns a Response, the ETA of the Response is
the minimum ETA over all results of the list, and its Driver is the driver ID
of the first result in accumulation order whose ETA equals that minimum; the
returned pair is the driver and ETA of that one result. -/
theorem C1_response_is_first_minimum (err : Option GoError)
    (results : List routeResult) (resp : Response) (e : Option GoError)
    (hno : ∀ r ∈ results, r.err = none)
    (hret : bestETA.Get.reduce err bestETA.Get.resp0 results = .ret (some resp) e) :
    (∀ r ∈ results, ∃ x, r.eta? = some x ∧ resp.ETA ≤ x) ∧
      ∃ r0, results.find? (fun r => decide (r.eta? = some resp.ETA)) = some r0 ∧
        r0 ∈ results ∧ r0.eta? = some resp.ETA ∧ r0.driver = resp.Driver := by
  have hroutes := reduce_ret_routes err results _ resp e hno hret
  obtain ⟨resp1, heq, _, hall, hsel⟩ := reduce_ok err results bestETA.Get.resp0 hroutes
  rw [heq, reduce_nil] at hret
  split at hret
  · cases hret
  rename_i hdrv
  simp only [GetResult.ret.injEq, Option.some.injEq] at hret
  obtain ⟨rfl, _⟩ := hret
  constructor
  · intro r hr
    obtain ⟨rt, hrt⟩ := Option.ne_none_iff_exists'.mp (hroutes r hr).2
    exact ⟨rt.ETA, by simp [routeResult.eta?, hrt], hall r hr rt.ETA (by simp [routeResult.eta?, hrt])⟩
  · rcases hsel with rfl | ⟨_, r0, hfind, hd⟩
    · exact absurd rfl hdrv
    · exact ⟨r0, hfind, List.mem_of_find?_eq_some hfind,
        by simpa using List.find?_some hfind, hd⟩

/-- Witness of C1: the results D1 at 3 minutes and D2 at 40 minutes give the
Response with Driver "D1" and ETA 3 minutes. -/
theorem C1_response_is_first_minimum_witness :
    bestETA.Get.reduce none bestETA.Get.resp0
        [⟨"D1", some ⟨3 * Minute⟩, none⟩, ⟨"D2", some ⟨40 * Minute⟩, none⟩] =
        .ret (some ⟨"D1", 3 * Minute⟩) none ∧
      ((∀ r ∈ [(⟨"D1", some ⟨3 * Minute⟩, none⟩ : routeResult),
                ⟨"D2", some ⟨40 * Minute⟩, none⟩],
          ∃ x, r.eta? = some x ∧ (3 * Minute : Duration) ≤ x) ∧
        ∃ r0, [(⟨"D1", some ⟨3 * Minute⟩, none⟩ : routeResult),
                ⟨"D2", some ⟨40 * Minute⟩, none⟩].find?
              (fun r => decide (r.eta? = some (3 * Minute))) = some r0 ∧
          r0 ∈ [(⟨"D1", some ⟨3 * Minute⟩, none⟩ : routeResult),
                ⟨"D2", some ⟨40 * Minute⟩, none⟩] ∧
          r0.eta? = some (3 * Minute) ∧ r0.driver = "D1") :=
  ⟨by decide,
    C1_response_is_first_minimum none
      [⟨"D1", some ⟨3 * Minute⟩, none⟩, ⟨"D2", some ⟨40 * Minute⟩, none⟩]
      ⟨"D1", 3 * Minute⟩ none (by decide) (by decide)⟩

/-- C2 (the code departs from the claim): in the scenario whose routing call
fails for D2, under every schedule, `bestETA.Get` for customer 123 returns the
Go pair `(nil, nil)`: no Response and no error, although `getRoutes` returned a
result that carries the error of the routing collaborator. Line 114 returns the
variable `err`, which holds `nil` since line 103, not `result.err`. -/
theorem C2_route_error_is_dropped (sched : List Nat) :
    (scenarioRouteFails.Get sched 123).result = some (.ret none none) ∧
      ∃ results r, (scenarioRouteFails.getRoutes sched
          ⟨"123", "Rachel's_Floral_Designs", "115,277"⟩
          [⟨"D1", "116,277"⟩, ⟨"D2", "500,500"⟩]).1 = some results ∧
        r ∈ results ∧ r.err = some ⟨"route service unavailable"⟩ := by
  obtain ⟨results, hperm, hres, hget⟩ := get_found scenarioRouteFails sched 123
    ⟨"123", "Rachel's_Floral_Designs", "115,277"⟩
    [⟨"D1", "116,277"⟩, ⟨"D2", "500,500"⟩] (by decide) rfl
  have hout : ([⟨"D1", "116,277"⟩, ⟨"D2", "500,500"⟩] : List driver.Driver).map
      (scenarioRouteFails.outcome ⟨"123", "Rachel's_Floral_Designs", "115,277"⟩) =
      [(⟨"D1", some ⟨3 * Minute⟩, none⟩ : routeResult),
       ⟨"D2", none, some ⟨"route service unavailable"⟩⟩] := by decide
  rw [hout] at hperm
  have hmem : ∀ r, r ∈ results ↔
      r ∈ [(⟨"D1", some ⟨3 * Minute⟩, none⟩ : routeResult),
           ⟨"D2", none, some ⟨"route service unavailable"⟩⟩] :=
    fun r => hperm.mem_iff
  constructor
  · rw [hget]
    simp only [Option.some.injEq]
    apply reduce_with_error
    · exact ⟨⟨"D2", none, some ⟨"route service unavailable"⟩⟩, (hmem _).mpr (by simp), by simp⟩
    · intro r hr hnone
      rcases List.mem_cons.mp ((hmem r).mp hr) with rfl | h2
      · simp
      · simp only [List.mem_singleton] at h2
        subst h2
        simp at hnone
  · exact ⟨results, _, hres, (hmem ⟨"D2", none, some ⟨"route service unavailable"⟩⟩).mpr (by simp), rfl⟩

/-- C3 (the claim as stated fails): a non-empty list without errors whose only
result has the empty driver ID and an ETA of zero, and one whose only result
has an ETA of `math.MaxInt64`, both make `bestETA.Get` fail with
"no routes found". -/
theorem C3_no_routes_on_nonempty_list :
    bestETA.Get.reduce none bestETA.Get.resp0 [⟨"", some ⟨0⟩, none⟩] =
        .ret none (some errNoRoutes) ∧
      bestETA.Get.reduce none bestETA.Get.resp0 [⟨"D1", some ⟨MaxInt64⟩, none⟩] =
        .ret none (some errNoRoutes) := by
  constructor <;> decide

/-- C3 (amended): for every accumulated list in which no result carries an
error and every result has a route, `bestETA.Get` returns a Response exactly
when the smallest ETA is below `math.MaxInt64` and the first result with that
ETA has a non-empty driver ID (an ETA of zero qualifies); in every other case it
fails with "no routes found". -/
theorem C3_response_iff_selected (err : Option GoError) (results : List routeResult)
    (hok : ∀ r ∈ results, r.err = none ∧ r.route ≠ none) :
    ((∃ resp, bestETA.Get.reduce err bestETA.Get.resp0 results = .ret (some resp) none) ↔
        ∃ r0 x, x < MaxInt64 ∧ (∀ r ∈ results, ∀ y, r.eta? = some y → x ≤ y) ∧
          results.find? (fun r => decide (r.eta? = some x)) = some r0 ∧ r0.driver ≠ "") ∧
      ((¬ ∃ resp, bestETA.Get.reduce err bestETA.Get.resp0 results = .ret (some resp) none) →
        bestETA.Get.reduce err bestETA.Get.resp0 results = .ret none (some errNoRoutes)) := by
  obtain ⟨resp1, heq, hle, hall, hsel⟩ := reduce_ok err results bestETA.Get.resp0 hok
  rw [heq, reduce_nil]
  refine ⟨⟨?_, ?_⟩, ?_⟩
  · rintro ⟨resp, hret⟩
    split at hret
    · cases hret
    rename_i hdrv
    rcases hsel with rfl | ⟨hlt, r0, hfind, hd⟩
    · exact absurd rfl hdrv
    · exact ⟨r0, resp1.ETA, hlt, hall, hfind, by rw [hd]; exact hdrv⟩
  · rintro ⟨r0, x, hx, hmin, hfind, hne⟩
    have hr0 : r0 ∈ results := List.mem_of_find?_eq_some hfind
    have hr0x : r0.eta? = some x := by simpa using List.find?_some hfind
    have hdrv : resp1.Driver ≠ "" := by
      rcases hsel with rfl | ⟨_, r1, hfind1, hd1⟩
      · have := hall r0 hr0 x hr0x
        simp only [bestETA.Get.resp0] at this
        exact absurd hx (not_lt.mpr this)
      · have hr1 : r1 ∈ results := List.mem_of_find?_eq_some hfind1
        have hr1x : r1.eta? = some resp1.ETA := by simpa using List.find?_some hfind1
        have hxe : resp1.ETA = x := le_antisymm (hall r0 hr0 x hr0x) (hmin r1 hr1 _ hr1x)
        rw [hxe, hfind] at hfind1
        cases hfind1
        rw [← hd1]
        exact hne
    exact ⟨resp1, by rw [if_neg hdrv]⟩
  · intro hno
    by_cases hdrv : resp1.Driver = ""
    · rw [if_pos hdrv]
    · exact absurd ⟨resp1, by rw [if_neg hdrv]⟩ hno

/-- Witness of C3 (amended): a single result for driver D1 with an ETA of zero
gives a Response. -/
theorem C3_response_iff_selected_witness :
    (∀ r ∈ [(⟨"D1", some ⟨0⟩, none⟩ : routeResult)], r.err = none ∧ r.route ≠ none) ∧
      ((∃ resp, bestETA.Get.reduce none bestETA.Get.resp0 [⟨"D1", some ⟨0⟩, none⟩] =
          .ret (some resp) none) ↔
        ∃ r0 x, x < MaxInt64 ∧
          (∀ r ∈ [(⟨"D1", some ⟨0⟩, none⟩ : routeResult)], ∀ y, r.eta? = some y → x ≤ y) ∧
          [(⟨"D1", some ⟨0⟩, none⟩ : routeResult)].find?
            (fun r => decide (r.eta? = some x)) = some r0 ∧ r0.driver ≠ "") :=
  ⟨by decide, (C3_response_iff_selected none [⟨"D1", some ⟨0⟩, none⟩] (by decide)).1⟩

/-- C4: for every list of candidate drivers for which routing never errors and
all results that attain the smallest ETA carry one driver ID (as when exactly
one driver attains it), `bestETA.Get` gives the same outcome for every
permutation of the accumulated result list, and so under every schedule of the
goroutines of `getRoutes`: the outcome of reducing the results in dispatch
order. -/
theorem C4_outcome_independent_of_order (eta : bestETA) (customerID : Int)
    (customer : customer.Customer) (drivers : List driver.Driver)
    (hc : eta.customer customerID = (some customer, none))
    (hd : eta.driver customer.Location = (drivers, none))
    (hok : ∀ d ∈ drivers, (eta.route d.Location customer.Location).2 = none ∧
      (eta.route d.Location customer.Location).1 ≠ none)
    (huniq : ∀ r1 ∈ drivers.map (eta.outcome customer),
      ∀ r2 ∈ drivers.map (eta.outcome customer),
        attainsMin (drivers.map (eta.outcome customer)) r1 →
        attainsMin (drivers.map (eta.outcome customer)) r2 → r1.driver = r2.driver) :
    (∀ results : List routeResult, results.Perm (drivers.map (eta.outcome customer)) →
        bestETA.Get.reduce none bestETA.Get.resp0 results =
          bestETA.Get.reduce none bestETA.Get.resp0 (drivers.map (eta.outcome customer))) ∧
      (∀ sched : List Nat, (eta.Get sched customerID).result =
        some (bestETA.Get.reduce none bestETA.Get.resp0
          (drivers.map (eta.outcome customer)))) := by
  have hout : ∀ r ∈ drivers.map (eta.outcome customer), r.err = none ∧ r.route ≠ none := by
    intro r hr
    obtain ⟨d, hdm, rfl⟩ := List.mem_map.mp hr
    exact hok d hdm
  have hperm : ∀ results : List routeResult,
      results.Perm (drivers.map (eta.outcome customer)) →
      bestETA.Get.reduce none bestETA.Get.resp0 results =
        bestETA.Get.reduce none bestETA.Get.resp0 (drivers.map (eta.outcome customer)) := by
    intro results hp
    have hres : ∀ r ∈ results, r.err = none ∧ r.route ≠ none :=
      fun r hr => hout r (hp.mem_iff.mp hr)
    obtain ⟨a, ha, _, halla, hsela⟩ := reduce_ok none results bestETA.Get.resp0 hres
    obtain ⟨b, hb, _, hallb, hselb⟩ := reduce_ok none _ bestETA.Get.resp0 hout
    rw [ha, hb]
    have hab : a = b := by
      rcases hsela with rfl | ⟨hlta, ra, hfa, hda⟩
      · rcases hselb with rfl | ⟨hltb, rb, hfb, _⟩
        · rfl
        · have hrb : rb ∈ results := hp.mem_iff.mpr (List.mem_of_find?_eq_some hfb)
          have hrbx : rb.eta? = some b.ETA := by simpa using List.find?_some hfb
          exact absurd hltb (not_lt.mpr (halla rb hrb _ hrbx))
      · have hra : ra ∈ drivers.map (eta.outcome customer) :=
          hp.mem_iff.mp (List.mem_of_find?_eq_some hfa)
        have hrax : ra.eta? = some a.ETA := by simpa using List.find?_some hfa
        rcases hselb with rfl | ⟨hltb, rb, hfb, hdb⟩
        · exact absurd hlta (not_lt.mpr (hallb ra hra _ hrax))
        · have hrb : rb ∈ drivers.map (eta.outcome customer) := List.mem_of_find?_eq_some hfb
          have hrbx : rb.eta? = some b.ETA := by simpa using List.find?_some hfb
          have hx : a.ETA = b.ETA :=
            le_antisymm (halla rb (hp.mem_iff.mpr hrb) _ hrbx) (hallb ra hra _ hrax)
          have hdrv : ra.driver = rb.driver :=
            huniq ra hra rb hrb ⟨a.ETA, hrax, by rw [hx]; exact hallb⟩ ⟨b.ETA, hrbx, hallb⟩
          obtain ⟨da, xa⟩ := a
          obtain ⟨db, xb⟩ := b
          simp only at hda hdb hx
          rw [← hda, ← hdb, hdrv, hx]
    rw [hab]
  refine ⟨hperm, ?_⟩
  intro sched
  obtain ⟨results, hp, _, hget⟩ := get_found eta sched customerID customer drivers hc hd
  rw [hget]
  simp only [Option.some.injEq]
  exact hperm results hp

/-- Witness of C4: in the spec scenario (customer 123, D1 at 3 minutes, D2 at
40 minutes) the schedule that lets D1 append first and a schedule that lets D2
append first both give the Response with Driver "D1" and ETA 3 minutes. -/
theorem C4_outcome_independent_of_order_witness :
    (scenario.getRoutes [] ⟨"123", "Rachel's_Floral_Designs", "115,277"⟩
        [⟨"D1", "116,277"⟩, ⟨"D2", "500,500"⟩]).1 =
        some [⟨"D1", some ⟨3 * Minute⟩, none⟩, ⟨"D2", some ⟨40 * Minute⟩, none⟩] ∧
      (scenario.getRoutes [0, 0, 2, 2, 2, 2, 2, 2] ⟨"123", "Rachel's_Floral_Designs", "115,277"⟩
        [⟨"D1", "116,277"⟩, ⟨"D2", "500,500"⟩]).1 =
        some [⟨"D2", some ⟨40 * Minute⟩, none⟩, ⟨"D1", some ⟨3 * Minute⟩, none⟩] ∧
      (scenario.Get [] 123).result = some (.ret (some ⟨"D1", 3 * Minute⟩) none) ∧
      (scenario.Get [0, 0, 2, 2, 2, 2, 2, 2] 123).result =
        some (.ret (some ⟨"D1", 3 * Minute⟩) none) :=
  ⟨by decide, by decide,
    (C4_outcome_independent_of_order scenario 123
      ⟨"123", "Rachel's_Floral_Designs", "115,277"⟩
      [⟨"D1", "116,277"⟩, ⟨"D2", "500,500"⟩] (by decide) rfl (by decide)
      scenario_unique_min).2 [],
    (C4_outcome_independent_of_order scenario 123
      ⟨"123", "Rachel's_Floral_Designs", "115,277"⟩
      [⟨"D1", "116,277"⟩, ⟨"D2", "500,500"⟩] (by decide) rfl (by decide)
      scenario_unique_min).2 [0, 0, 2, 2, 2, 2, 2, 2]⟩

/-- C5: for every customerID for which the customer collaborator fails,
`bestETA.Get` returns no Response and exactly that error, and the only
collaborator call it makes is that one call of the customer collaborator:
none to the nearest-drivers collaborator, none to the routing collaborator. -/
theorem C5_customer_error_aborts (eta : bestETA) (sched : List Nat) (customerID : Int)
    (c : Option customer.Customer) (e : GoError)
    (h : eta.customer customerID = (c, some e)) :
    (eta.Get sched customerID).result = some (.ret none (some e)) ∧
      (eta.Get sched customerID).calls = [Call.customerGet customerID] := by
  unfold bestETA.Get
  rw [h]
  cases c <;> exact ⟨rfl, rfl⟩

/-- Witness of C5: customer id 999, unknown to the customer database. -/
theorem C5_customer_error_aborts_witness :
    scenario.customer 999 = (none, some customer.errInvalidCustomer) ∧
      (scenario.Get [] 999).result = some (.ret none (some customer.errInvalidCustomer)) ∧
      (scenario.Get [] 999).calls = [Call.customerGet 999] :=
  ⟨by decide, C5_customer_error_aborts scenario [] 999 none customer.errInvalidCustomer
    (by decide)⟩

/-- C6: for every customer that is found, if the nearest-drivers collaborator
fails, `bestETA.Get` returns no Response and exactly that error, having called
the customer and the nearest-drivers collaborators only: `getRoutes` is not
entered and `FindRoute` is never called. -/
theorem C6_driver_error_aborts (eta : bestETA) (sched : List Nat) (customerID : Int)
    (customer : customer.Customer) (drivers : List driver.Driver) (e : GoError)
    (hc : eta.customer customerID = (some customer, none))
    (hd : eta.driver customer.Location = (drivers, some e)) :
    (eta.Get sched customerID).result = some (.ret none (some e)) ∧
      (eta.Get sched customerID).calls =
        [Call.customerGet customerID, Call.findNearest customer.Location] ∧
      ∀ pickup dropoff, Call.findRoute pickup dropoff ∉ (eta.Get sched customerID).calls := by
  have hget : eta.Get sched customerID =
      { result := some (.ret none (some e))
        calls := [Call.customerGet customerID, Call.findNearest customer.Location] } := by
    unfold bestETA.Get
    rw [hc]
    simp only [hd]
    simp
  rw [hget]
  exact ⟨rfl, rfl, by simp⟩

/-- Witness of C6: customer 123 in the scenario whose nearest-drivers
collaborator fails. -/
theorem C6_driver_error_aborts_witness :
    (scenarioNoDrivers.Get [] 123).result =
        some (.ret none (some ⟨"driver service unavailable"⟩)) ∧
      (scenarioNoDrivers.Get [] 123).calls =
        [Call.customerGet 123, Call.findNearest "115,277"] ∧
      ∀ pickup dropoff,
        Call.findRoute pickup dropoff ∉ (scenarioNoDrivers.Get [] 123).calls :=
  C6_driver_error_aborts scenarioNoDrivers [] 123
    ⟨"123", "Rachel's_Floral_Designs", "115,277"⟩ [] ⟨"driver service unavailable"⟩
    (by decide) rfl

/-- C7: for every found customer, when the nearest-drivers collaborator
returns no drivers, `getRoutes` returns the empty slice under every schedule,
with no closure dispatched, the counter of `wg` at zero and no `FindRoute`
call, and `bestETA.Get` returns no Response and the error "no routes found". -/
theorem C7_no_drivers_no_routes (eta : bestETA) (sched : List Nat) (customerID : Int)
    (customer : customer.Customer)
    (hc : eta.customer customerID = (some customer, none))
    (hd : eta.driver customer.Location = ([], none)) :
    eta.getRoutes sched customer [] = (some [], []) ∧
      (bestETA.getRoutes.final eta sched customer []).tasks = [] ∧
      (bestETA.getRoutes.final eta sched customer []).wg = 0 ∧
      (eta.Get sched customerID).result = some (.ret none (some errNoRoutes)) ∧
      (eta.Get sched customerID).calls =
        [Call.customerGet customerID, Call.findNearest customer.Location] := by
  have hroutes : eta.getRoutes sched customer [] = (some [], []) := by
    unfold bestETA.getRoutes
    rw [final_no_drivers]
    rfl
  have hget : eta.Get sched customerID =
      { result := some (.ret none (some errNoRoutes))
        calls := [Call.customerGet customerID, Call.findNearest customer.Location] } := by
    unfold bestETA.Get
    rw [hc]
    simp only [hd, hroutes]
    simp [bestETA.Get.reduce, bestETA.Get.resp0]
  rw [hget, final_no_drivers]
  exact ⟨hroutes, rfl, rfl, rfl, rfl⟩

/-- Witness of C7: customer 123 in the scenario whose nearest-drivers
collaborator finds nobody. -/
theorem C7_no_drivers_no_routes_witness :
    scenarioEmpty.getRoutes [1, 0, 2] ⟨"123", "Rachel's_Floral_Designs", "115,277"⟩ [] =
        (some [], []) ∧
      (scenarioEmpty.Get [1, 0, 2] 123).result = some (.ret none (some errNoRoutes)) :=
  ⟨(C7_no_drivers_no_routes scenarioEmpty [1, 0, 2] 123
      ⟨"123", "Rachel's_Floral_Designs", "115,277"⟩ (by decide) rfl).1,
    (C7_no_drivers_no_routes scenarioEmpty [1, 0, 2] 123
      ⟨"123", "Rachel's_Floral_Designs", "115,277"⟩ (by decide) rfl).2.2.2.1⟩

/-- C10: for every list of candidate drivers and every schedule of the
goroutines, `getRoutes` returns, and returns exactly one result per driver: the
returned slice has as many results as there are drivers and is a permutation
of the per-driver outcomes, each made of the driver's ID and the route and
error that `FindRoute` returned for the driver's and the customer's locations. -/
theorem C10_one_result_per_driver (eta : bestETA) (sched : List Nat)
    (customer : customer.Customer) (drivers : List driver.Driver) :
    ∃ results, (eta.getRoutes sched customer drivers).1 = some results ∧
      results.length = drivers.length ∧
      results.Perm (drivers.map (fun d =>
        ({ driver := d.DriverID
           route := (eta.route d.Location customer.Location).1
           err := (eta.route d.Location customer.Location).2 } : routeResult))) := by
  obtain ⟨results, hres, hperm⟩ := getRoutes_returns_perm eta sched customer drivers
  refine ⟨results, hres, ?_, hperm⟩
  rw [hperm.length_eq, List.length_map]

end frontend

end hotrod
